import Mathlib

/-!
# Verification of the voltage-statistics pipeline (`src/main.py`)

Shallow embedding of the pipeline in `main.py`:

* A pandas `DataFrame` is modelled by `DF`: a list of column names together
  with a list of rows, each row a list of cells (`Val`).  A cell is a string
  (modelled as `List Char`), a rational number (modelling a Python float),
  or `NaN`.
* `process_pdf` models the ingestion function of the same name, from the
  point where the external extractor (`tabula.read_pdf`) has already
  returned its list of tables.
* `calculate_statistics` models the statistics engine; pandas reductions
  (`mean`, `median`, `mode`, `std`, `var`, `max`, `min`, `quantile`) are
  given their pandas semantics over exact rationals, with `Option` encoding
  a pandas `NaN` result (`std`/`var` with fewer than two samples) and, at
  the outer level, a raised exception (which `calculate_statistics` does
  not catch).
* `calculate_statistics_call` wraps the engine in an explicit heap of
  DataFrame objects to make Python's reference semantics (the in-place
  column assignments on lines 47-48) visible.
* `loopStep`/`runEvents` model the PySimpleGUI event loop of `main` and the
  events the two windows can emit.
-/

/-- A Python string, modelled as its list of characters. -/
abbrev PyStr := List Char

/-- A DataFrame cell: a string, a float (exact rational), or NaN. -/
inductive Val
  | str (s : PyStr)
  | num (q : ℚ)
  | nan
deriving DecidableEq, Repr

/-- A pandas DataFrame: named columns and rows of cells. -/
structure DF where
  colNames : List String
  rows : List (List Val)
deriving DecidableEq, Repr

instance : Inhabited DF := ⟨⟨[], []⟩⟩

deriving instance DecidableEq for Except

/-- Models `df.columns = names` (pandas column renaming, `main.py` lines 26/28). -/
def DF.setCols (df : DF) (names : List String) : DF :=
  { df with colNames := names }

/-- Position of a named column, if present. -/
def DF.colIdx (df : DF) (name : String) : Option Nat :=
  df.colNames.findIdx? (· = name)

/-- Models `df[name] = df[name].map f`: column-wise update in place of a column. -/
def DF.mapCol (df : DF) (name : String) (f : Val → Val) : DF :=
  match df.colIdx name with
  | none => df
  | some i => { df with rows := df.rows.map (fun r => r.set i (f (r.getD i .nan))) }

/-- Models `df.dropna(subset=[name])`: drop rows whose cell in the column is NaN. -/
def DF.dropnaOn (df : DF) (name : String) : DF :=
  match df.colIdx name with
  | none => df
  | some i => { df with rows := df.rows.filter (fun r => r.getD i .nan ≠ .nan) }

/-- Models `df[name]` as a list of cells, `none` when the column is missing
(pandas would raise a `KeyError`). -/
def DF.col (df : DF) (name : String) : Option (List Val) :=
  (df.colIdx name).map (fun i => df.rows.map (fun r => r.getD i .nan))

/-- Models `df[name] = vals` for a fresh column name: appends a cell to each row. -/
def DF.addCol (df : DF) (name : String) (vals : List Val) : DF :=
  { colNames := df.colNames ++ [name],
    rows := List.zipWith (fun r v => r ++ [v]) df.rows vals }

/-- Rectangularity: every row has exactly one cell per column. -/
def DF.rect (df : DF) : Bool :=
  df.rows.all (fun r => r.length = df.colNames.length)

/-- Numeric value of a list of decimal digit characters. -/
def digitsVal (ds : List Char) : ℕ :=
  ds.foldl (fun a c => a * 10 + (c.toNat - 48)) 0

/-- Parse a decimal numeral (optional sign, integer part, optional
fractional part) to a rational; models the grammar accepted by
`pd.to_numeric` on plain decimal cells. -/
def toNumeric (s : PyStr) : Option ℚ :=
  let signAndRest : ℚ × PyStr :=
    match s with
    | '-' :: t => (-1, t)
    | '+' :: t => (1, t)
    | t => (1, t)
  let sgn := signAndRest.1
  let rest := signAndRest.2
  let intPart := rest.takeWhile Char.isDigit
  let rest2 := rest.dropWhile Char.isDigit
  match rest2 with
  | [] => if intPart = [] then none else some (sgn * digitsVal intPart)
  | '.' :: frac =>
    if frac.all Char.isDigit ∧ (intPart ≠ [] ∨ frac ≠ []) then
      some (sgn * ((digitsVal intPart : ℚ) + (digitsVal frac : ℚ) / (10 ^ frac.length)))
    else none
  | _ => none

/-- Models `pd.to_numeric(cell, errors='coerce')`: numbers pass through, strings
are parsed, anything unparseable becomes NaN (`main.py` line 32). -/
def toNumericCoerce : Val → Val
  | .num q => .num q
  | .nan => .nan
  | .str s =>
    match toNumeric s with
    | some q => .num q
    | none => .nan

/-- One character of the timestamp normalization: digits and colons are
kept, every other character becomes a colon (regex `[^0-9:]` → `:`). -/
def normChar (c : Char) : Char :=
  if c.isDigit ∨ c = ':' then c else ':'

/-- Models `str.replace(r'[^0-9:]', ':', regex=True)` on one string
(`main.py` line 34): a one-to-one character substitution. -/
def normalizeHora (s : PyStr) : PyStr :=
  s.map normChar

/-- Models `astype(str)` on one cell. -/
def valToStr : Val → PyStr
  | .str s => s
  | .num q => (toString q).data
  | .nan => ['n', 'a', 'n']

/-- Error message of `main.py` line 21. -/
def NoTablesFound : String := "No tables found in PDF"

/-- Error message of `main.py` line 30. -/
def UnexpectedStructure : String := "Unexpected table structure"

/-- Error message of `main.py` line 37. -/
def NoValidData : String := "No valid voltage data found"

/-- Column names assigned to a 4-column table (`main.py` line 26). -/
def names4 : List String := ["Lectura", "Hora", "Voltaje", "Ordenado_ascendente"]

/-- Column names assigned to a 3-column table (`main.py` line 28). -/
def names3 : List String := ["Hora", "Voltaje", "Ordenado_ascendente"]

/-- The common tail of `process_pdf` after the column names are assigned
(`main.py` lines 32-39): coerce the voltage column to numbers, drop rows
whose voltage is NaN, normalize the timestamp column, and fail when no
rows remain. -/
def finishTable (df : DF) : Except String DF :=
  let df1 := df.mapCol "Voltaje" toNumericCoerce
  let df2 := df1.dropnaOn "Voltaje"
  let df3 := df2.mapCol "Hora" (fun v => .str (normalizeHora (valToStr v)))
  if df3.rows.isEmpty then .error NoValidData else .ok df3

/-- Models `process_pdf` (`main.py` lines 17-41), from the point where the
extractor has returned `tables`: no tables is an error, otherwise the
first table's column count selects the layout, any other count is an
error, and the selected table is cleaned by `finishTable`. -/
def process_pdf (tables : List DF) : Except String DF :=
  match tables with
  | [] => .error NoTablesFound
  | t :: _ =>
    if t.colNames.length = 4 then
      finishTable (t.setCols names4)
    else if t.colNames.length = 3 then
      finishTable (t.setCols names3)
    else
      .error UnexpectedStructure

/-- The nominal reference voltage (`main.py` line 44). -/
def real_voltage : ℚ := 127

/-- Extract the rationals of a column of cells; `none` when some cell is
not a number (pandas arithmetic on such a column raises). -/
def valsToQ : List Val → Option (List ℚ)
  | [] => some []
  | .num q :: rest => (valsToQ rest).map (fun l => q :: l)
  | .str _ :: _ => none
  | .nan :: _ => none

/-- Models `Series.mean()`: NaN on an empty series. -/
def meanQ (vs : List ℚ) : Option ℚ :=
  if vs.length = 0 then none else some (vs.sum / vs.length)

/-- The series sorted ascending. -/
def sortedQ (vs : List ℚ) : List ℚ :=
  vs.mergeSort (· ≤ ·)

/-- Models `Series.median()`: middle element of the sorted series, or the average
of the two middle elements when the length is even; NaN on empty. -/
def medianQ (vs : List ℚ) : Option ℚ :=
  if vs.length = 0 then none
  else
    let s := sortedQ vs
    let n := vs.length
    if n % 2 = 1 then some (s.getD (n / 2) 0)
    else some ((s.getD (n / 2 - 1) 0 + s.getD (n / 2) 0) / 2)

/-- Models `Series.mode().tolist()`: all values tied for the highest frequency,
sorted ascending. -/
def modeQ (vs : List ℚ) : List ℚ :=
  let m := (vs.map (fun x => vs.count x)).foldr max 0
  sortedQ (vs.dedup.filter (fun x => vs.count x = m))

/-- Models `Series.var()` (sample variance, divisor `n-1`): NaN when the series
has fewer than two elements. -/
def varQ (vs : List ℚ) : Option ℚ :=
  if 2 ≤ vs.length then
    (meanQ vs).map (fun μ => (vs.map (fun v => (v - μ) ^ 2)).sum / (vs.length - 1 : ℕ))
  else none

/-- Models `Series.max()`: NaN on empty. -/
def maxQ (vs : List ℚ) : Option ℚ := vs.max?

/-- Models `Series.min()`: NaN on empty. -/
def minQ (vs : List ℚ) : Option ℚ := vs.min?

/-- Models `Series.quantile(p)` with pandas' linear interpolation between order
statistics: position `h = (n-1)·p`, result
`s[⌊h⌋] + (h-⌊h⌋)·(s[⌊h⌋+1] - s[⌊h⌋])`; NaN on empty. -/
def quantileQ (vs : List ℚ) (p : ℚ) : Option ℚ :=
  if vs.length = 0 then none
  else
    let s := sortedQ vs
    let h : ℚ := ((vs.length - 1 : ℕ) : ℚ) * p
    let i : ℕ := ⌊h⌋.toNat
    let g : ℚ := h - i
    some (s.getD i 0 + g * (s.getD (i + 1) 0 - s.getD i 0))

/-- Models `(series - mean).abs().mean()`: mean absolute deviation from the mean;
NaN on empty. -/
def madQ (vs : List ℚ) : Option ℚ :=
  (meanQ vs).bind (fun μ =>
    if vs.length = 0 then none
    else some ((vs.map (fun v => |v - μ|)).sum / vs.length))

/-- The augmented frame of `main.py` lines 47-48: the per-row absolute
and relative error columns appended to the frame. -/
def dfAug (df : DF) (vq : List ℚ) : DF :=
  (df.addCol "Error Absoluto" (vq.map (fun v => Val.num |v - real_voltage|))).addCol
    "Error Relativo (%)" (vq.map (fun v => Val.num (|v - real_voltage| / real_voltage * 100)))

/-- The `stats` record built by `calculate_statistics` (`main.py` lines
50-59).  `std_dev`, `variance` and `coefficient_variation` are `Option`s
because pandas yields NaN for `std`/`var` of a series with fewer than two
elements; the remaining fields are genuine numbers whenever the engine
returns at all. -/
structure SummaryStatistics where
  mean : ℚ
  median : ℚ
  mode : List ℚ
  std_dev : Option ℝ
  variance : Option ℚ
  range : ℚ
  coefficient_variation : Option ℝ
  semi_interquartil : ℚ
  mad : ℚ

/-- Models `calculate_statistics` (`main.py` lines 43-61): augments the frame
with the two per-row error columns (lines 47-48), then computes the
statistics of the `Voltaje` column.  The outer `Option` is `none` exactly
when the Python code would raise (missing/non-numeric `Voltaje` column or
a NaN-producing reduction on an empty series); the `some` value is the
`(stats, df)` pair the function returns. -/
noncomputable def calculate_statistics (df : DF) : Option (SummaryStatistics × DF) := do
  let vals ← df.col "Voltaje"
  let vq ← valsToQ vals
  let dfA := dfAug df vq
  let μ ← meanQ vq
  let med ← medianQ vq
  let mo := modeQ vq
  let va := varQ vq
  let sd : Option ℝ := va.map (fun q => Real.sqrt (q : ℝ))
  let mx ← maxQ vq
  let mn ← minQ vq
  let cv : Option ℝ := if μ ≠ 0 then sd.map (fun x => x / (μ : ℝ)) else some 0
  let q1 ← quantileQ vq (1 / 4)
  let q3 ← quantileQ vq (3 / 4)
  let md ← madQ vq
  some ({ mean := μ, median := med, mode := mo, std_dev := sd, variance := va,
          range := mx - mn, coefficient_variation := cv,
          semi_interquartil := (q3 - q1) / 2, mad := md }, dfA)

/-- The error augmentation of `main.py` lines 47-48 in isolation: the two
columns appended to the frame. -/
def augmentErrors (df : DF) : Option DF := do
  let vals ← df.col "Voltaje"
  let vq ← valsToQ vals
  some (dfAug df vq)

/-- The call `stats, df = calculate_statistics(df)` under Python reference
semantics: an explicit heap of DataFrame objects, a reference `r` into it.
The in-place column assignments of lines 47-48 update the heap cell at
`r`; the function returns the statistics together with the very same
reference `r`. -/
noncomputable def calculate_statistics_call (heap : List DF) (r : ℕ) :
    Option ((SummaryStatistics × ℕ) × List DF) := do
  let df ← heap.get? r
  let sdf ← calculate_statistics df
  some ((sdf.1, r), heap.set r sdf.2)

/-- The two screens of the application: the file-selection window built by
`main_window` and the results window built by `results_window`. -/
inductive Screen
  | fileSelect
  | results
deriving DecidableEq, Repr

/-- An event returned by `window.read()`: `none` is `sg.WIN_CLOSED`,
`some s` is the text of the clicked button. -/
abbrev Event := Option String

/-- The events each window can emit.  `main_window` (lines 81-97) has the
buttons `Procesar` and `Salir` (the `Examinar` browse button is handled
inside PySimpleGUI and never reaches the loop); `results_window` (lines
99-170) has the buttons `Generar Reporte` (line 157) and `Cerrar` (line
158).  Either window can also be closed, yielding `sg.WIN_CLOSED`. -/
def windowEvents : Screen → List Event
  | .fileSelect => [none, some "Procesar", some "Salir"]
  | .results => [none, some "Generar Reporte", some "Cerrar"]

/-- Per-iteration inputs the loop body reads besides the event: whether
`values['-FILE-']` is non-empty and whether `process_pdf` succeeds. -/
structure StepInput where
  hasFile : Bool
  processOk : Bool
deriving DecidableEq, Repr

/-- Outcome of one iteration of the `while True` loop of `main` (lines
176-209): the screen showing afterwards (`none` when the loop `break`s)
and whether the report-generation branch (lines 199-209, guarded by
`event == 'Generar Reporte PDF'`) executed. -/
structure StepOut where
  next : Option Screen
  reportBranch : Bool
deriving DecidableEq, Repr

/-- One iteration of the event loop of `main` (`main.py` lines 176-209). -/
def loopStep (scr : Screen) (ev : Event) (inp : StepInput) : StepOut :=
  if ev = none ∨ ev = some "Cerrar" ∨ ev = some "Exit" then
    { next := none, reportBranch := false }
  else if ev = some "Procesar" then
    if inp.hasFile = false then { next := some scr, reportBranch := false }
    else if inp.processOk = false then { next := some scr, reportBranch := false }
    else { next := some Screen.results, reportBranch := false }
  else
    { next := some scr, reportBranch := ev = some "Generar Reporte PDF" }

/-- Whether the report-generation branch runs at some point when the loop,
currently showing `scr`, consumes the given events. -/
def runEvents : Screen → List (Event × StepInput) → Bool
  | _, [] => false
  | scr, (ev, inp) :: rest =>
    let o := loopStep scr ev inp
    o.reportBranch ||
      match o.next with
      | none => false
      | some s => runEvents s rest

/-- A trace is producible by the windows when every consumed event is one
the currently showing window can emit. -/
def validTrace : Screen → List (Event × StepInput) → Prop
  | _, [] => True
  | scr, (ev, inp) :: rest =>
    ev ∈ windowEvents scr ∧
      match (loopStep scr ev inp).next with
      | none => True
      | some s => validTrace s rest

/-! ## Helper lemmas about list cells -/

lemma getD_set_self (l : List Val) (i : ℕ) (v d : Val) :
    (l.set i v).getD i d = if i < l.length then v else d := by
  by_cases h : i < l.length
  · rw [List.getD_eq_getElem?_getD, List.getElem?_set_self h]
    simp [h]
  · push_neg at h
    rw [List.set_eq_of_length_le h, List.getD_eq_default _ _ h, if_neg (by omega)]

lemma getD_set_ne (l : List Val) {i j : ℕ} (h : i ≠ j) (v d : Val) :
    (l.set i v).getD j d = l.getD j d := by
  rw [List.getD_eq_getElem?_getD, List.getElem?_set_ne h, ← List.getD_eq_getElem?_getD]

/-! ## Claim-level descriptions of the ingestion output -/

/-- Index of the voltage column for a given column count. -/
def voltIdx (n : ℕ) : ℕ := if n = 4 then 2 else 1

/-- Index of the timestamp column for a given column count. -/
def horaIdx (n : ℕ) : ℕ := if n = 4 then 1 else 0

/-- Column names assigned for a given recognized column count. -/
def namesFor (n : ℕ) : List String := if n = 4 then names4 else names3

/-- A row survives ingestion exactly when its voltage cell coerces to a
number rather than NaN. -/
def parsesRow (vi : ℕ) (r : List Val) : Bool :=
  toNumericCoerce (r.getD vi .nan) ≠ .nan

/-- Replace the voltage cell of one row by its numeric coercion. -/
def coerceAt (vi : ℕ) (r : List Val) : List Val :=
  r.set vi (toNumericCoerce (r.getD vi .nan))

/-- Replace the timestamp cell of one row by its normalization. -/
def normHoraAt (hi : ℕ) (r : List Val) : List Val :=
  r.set hi (.str (normalizeHora (valToStr (r.getD hi .nan))))

/-- The full per-row transformation ingestion applies to a surviving row. -/
def rowClean (vi hi : ℕ) (r : List Val) : List Val :=
  normHoraAt hi (coerceAt vi r)

/-- The rows of the first table whose voltage cell parses, in order. -/
def surviving (t : DF) : List (List Val) :=
  t.rows.filter (fun r => parsesRow (voltIdx t.colNames.length) r)

lemma coerceAt_getD (vi : ℕ) (r : List Val) :
    (coerceAt vi r).getD vi .nan = toNumericCoerce (r.getD vi .nan) := by
  unfold coerceAt
  rw [getD_set_self]
  by_cases h : vi < r.length
  · rw [if_pos h]
  · push_neg at h
    rw [if_neg (by omega), List.getD_eq_default _ _ h]
    rfl

lemma colIdx3_volt (rows : List (List Val)) :
    (DF.mk names3 rows).colIdx "Voltaje" = some 1 := rfl

lemma colIdx3_hora (rows : List (List Val)) :
    (DF.mk names3 rows).colIdx "Hora" = some 0 := rfl

lemma colIdx4_volt (rows : List (List Val)) :
    (DF.mk names4 rows).colIdx "Voltaje" = some 2 := rfl

lemma colIdx4_hora (rows : List (List Val)) :
    (DF.mk names4 rows).colIdx "Hora" = some 1 := rfl

/-- The cleaned rows produced by the `mapCol`/`dropna`/`mapCol` chain are
exactly the surviving original rows, each transformed by `rowClean`. -/
lemma chain_rows (vi hi : ℕ) (rows : List (List Val)) :
    ((rows.map (coerceAt vi)).filter (fun r => decide (r.getD vi .nan ≠ .nan))).map
        (normHoraAt hi)
      = (rows.filter (fun r => parsesRow vi r)).map (rowClean vi hi) := by
  rw [List.filter_map, List.map_map]
  congr 1
  apply List.filter_congr
  intro r _
  simp only [Function.comp_apply, coerceAt_getD, parsesRow]


lemma mapColV3 (rs : List (List Val)) :
    (DF.mk names3 rs).mapCol "Voltaje" toNumericCoerce = ⟨names3, rs.map (coerceAt 1)⟩ := by
  unfold DF.mapCol
  rw [colIdx3_volt]
  rfl

lemma dropna3 (rs : List (List Val)) :
    (DF.mk names3 rs).dropnaOn "Voltaje" =
      ⟨names3, rs.filter (fun r => decide (r.getD 1 .nan ≠ .nan))⟩ := by
  unfold DF.dropnaOn
  rw [colIdx3_volt]

lemma mapColH3 (rs : List (List Val)) :
    (DF.mk names3 rs).mapCol "Hora" (fun v => .str (normalizeHora (valToStr v))) =
      ⟨names3, rs.map (normHoraAt 0)⟩ := by
  unfold DF.mapCol
  rw [colIdx3_hora]
  rfl

lemma finishTable3 (rows : List (List Val)) :
    finishTable ⟨names3, rows⟩ =
      if rows.filter (fun r => parsesRow 1 r) = [] then .error NoValidData
      else .ok ⟨names3, (rows.filter (fun r => parsesRow 1 r)).map (rowClean 1 0)⟩ := by
  simp only [finishTable, mapColV3, dropna3, mapColH3, chain_rows]
  by_cases h : rows.filter (fun r => parsesRow 1 r) = []
  · simp [h]
  · simp [h, List.isEmpty_iff, List.map_eq_nil_iff]

lemma mapColV4 (rs : List (List Val)) :
    (DF.mk names4 rs).mapCol "Voltaje" toNumericCoerce = ⟨names4, rs.map (coerceAt 2)⟩ := by
  unfold DF.mapCol
  rw [colIdx4_volt]
  rfl

lemma dropna4 (rs : List (List Val)) :
    (DF.mk names4 rs).dropnaOn "Voltaje" =
      ⟨names4, rs.filter (fun r => decide (r.getD 2 .nan ≠ .nan))⟩ := by
  unfold DF.dropnaOn
  rw [colIdx4_volt]

lemma mapColH4 (rs : List (List Val)) :
    (DF.mk names4 rs).mapCol "Hora" (fun v => .str (normalizeHora (valToStr v))) =
      ⟨names4, rs.map (normHoraAt 1)⟩ := by
  unfold DF.mapCol
  rw [colIdx4_hora]
  rfl

lemma finishTable4 (rows : List (List Val)) :
    finishTable ⟨names4, rows⟩ =
      if rows.filter (fun r => parsesRow 2 r) = [] then .error NoValidData
      else .ok ⟨names4, (rows.filter (fun r => parsesRow 2 r)).map (rowClean 2 1)⟩ := by
  simp only [finishTable, mapColV4, dropna4, mapColH4, chain_rows]
  by_cases h : rows.filter (fun r => parsesRow 2 r) = []
  · simp [h]
  · simp [h, List.isEmpty_iff, List.map_eq_nil_iff]

/-- Reduction of `process_pdf` on a non-empty table list, reduced to `finishTable` or
the structure error according to the first table's column count. -/
lemma process_pdf_cons (t : DF) (rest : List DF) :
    process_pdf (t :: rest) =
      if t.colNames.length = 4 then finishTable (t.setCols names4)
      else if t.colNames.length = 3 then finishTable (t.setCols names3)
      else .error UnexpectedStructure := rfl

lemma setCols_mk (t : DF) (names : List String) :
    t.setCols names = ⟨names, t.rows⟩ := rfl

/-- C1. For every extracted first table, ingestion determines column
roles strictly by column count: a 4-column table is read with columns
(index, timestamp, voltage, pre-sorted-flag) — the names `names4` — a
3-column table with (timestamp, voltage, pre-sorted-flag) — the names
`names3` — and for every other column count `process_pdf` fails with the
`UnexpectedStructure` error instead of producing a frame. -/
theorem c1_layout_by_column_count (t : DF) (rest : List DF) :
    (t.colNames.length = 4 →
      ∀ df : DF, process_pdf (t :: rest) = .ok df → df.colNames = names4) ∧
    (t.colNames.length = 3 →
      ∀ df : DF, process_pdf (t :: rest) = .ok df → df.colNames = names3) ∧
    ((t.colNames.length = 3 ∨ t.colNames.length = 4) →
      process_pdf (t :: rest) ≠ .error UnexpectedStructure) ∧
    (t.colNames.length ≠ 3 → t.colNames.length ≠ 4 →
      process_pdf (t :: rest) = .error UnexpectedStructure) := by
  refine ⟨?_, ?_, ?_, ?_⟩
  · intro h4 df hok
    rw [process_pdf_cons, if_pos h4, setCols_mk, finishTable4] at hok
    split at hok
    · exact absurd hok (by simp)
    · cases hok
      rfl
  · intro h3 df hok
    have h4 : ¬ t.colNames.length = 4 := by omega
    rw [process_pdf_cons, if_neg h4, if_pos h3, setCols_mk, finishTable3] at hok
    split at hok
    · exact absurd hok (by simp)
    · cases hok
      rfl
  · rintro (h3 | h4) heq
    · have h4 : ¬ t.colNames.length = 4 := by omega
      rw [process_pdf_cons, if_neg h4, if_pos h3, setCols_mk, finishTable3] at heq
      split at heq <;> simp_all [NoValidData, UnexpectedStructure]
    · rw [process_pdf_cons, if_pos h4, setCols_mk, finishTable4] at heq
      split at heq <;> simp_all [NoValidData, UnexpectedStructure]
  · intro h3 h4
    rw [process_pdf_cons, if_neg h4, if_neg h3]

/-- Witness for C1: a concrete 5-column table is rejected with
`UnexpectedStructure`. -/
theorem c1_witness :
    process_pdf [⟨["a", "b", "c", "d", "e"], [[Val.num 1]]⟩] =
      .error UnexpectedStructure :=
  (c1_layout_by_column_count ⟨["a", "b", "c", "d", "e"], [[Val.num 1]]⟩ []).2.2.2
    (by decide) (by decide)

/-- C2. For every recognized (3- or 4-column) table, each row whose
voltage cell fails to coerce to a number is dropped without an error;
ingestion fails with `NoValidData` exactly when zero rows survive; and
when at least one row survives, the output consists of exactly the
surviving rows in their original relative order, each with its voltage
cell parsed and its timestamp cell normalized. -/
theorem c2_row_survival (t : DF) (rest : List DF)
    (h : t.colNames.length = 3 ∨ t.colNames.length = 4) :
    (surviving t = [] → process_pdf (t :: rest) = .error NoValidData) ∧
    (surviving t ≠ [] →
      process_pdf (t :: rest) =
        .ok ⟨namesFor t.colNames.length,
             (surviving t).map
               (rowClean (voltIdx t.colNames.length) (horaIdx t.colNames.length))⟩) := by
  rcases h with h3 | h4
  · have hv : voltIdx t.colNames.length = 1 := by rw [h3]; rfl
    have hh : horaIdx t.colNames.length = 0 := by rw [h3]; rfl
    have hn : namesFor t.colNames.length = names3 := by rw [h3]; rfl
    have h4 : ¬ t.colNames.length = 4 := by omega
    unfold surviving
    rw [hv, hh, hn, process_pdf_cons, if_neg h4, if_pos h3, setCols_mk, finishTable3]
    constructor
    · intro hs
      rw [if_pos hs]
    · intro hs
      rw [if_neg hs]
  · have hv : voltIdx t.colNames.length = 2 := by rw [h4]; rfl
    have hh : horaIdx t.colNames.length = 1 := by rw [h4]; rfl
    have hn : namesFor t.colNames.length = names4 := by rw [h4]; rfl
    unfold surviving
    rw [hv, hh, hn, process_pdf_cons, if_pos h4, setCols_mk, finishTable4]
    constructor
    · intro hs
      rw [if_pos hs]
    · intro hs
      rw [if_neg hs]

/-- The 3-column example table of the specification: the middle row's
voltage cell `"abc"` does not parse. -/
def exTable : DF :=
  ⟨["a", "b", "c"],
   [[.str ['0', '8', ':', '1', '5'], .str ['1', '2', '7', '.', '1'], .str ['s', 'i']],
    [.str ['0', '8', ':', '1', '6'], .str ['a', 'b', 'c'], .str ['n', 'o']],
    [.str ['0', '8', ':', '1', '7'], .str ['1', '2', '6', '.', '9'], .str ['n', 'o']]]⟩

/-- Witness for C2: on the specification's example table one row is
dropped and the two surviving rows are returned, in order. -/
theorem c2_witness :
    surviving exTable ≠ [] ∧
    process_pdf [exTable] =
      .ok ⟨namesFor exTable.colNames.length,
           (surviving exTable).map
             (rowClean (voltIdx exTable.colNames.length) (horaIdx exTable.colNames.length))⟩ :=
  ⟨by decide, (c2_row_survival exTable [] (Or.inl (by decide))).2 (by decide)⟩

lemma normalizeHora_getD (s : PyStr) (i : ℕ) :
    (normalizeHora s).getD i ':' = normChar (s.getD i ':') := by
  unfold normalizeHora
  rw [List.getD_eq_getElem?_getD, List.getElem?_map, List.getD_eq_getElem?_getD]
  cases s[i]? with
  | none => simp [normChar]
  | some c => simp

lemma normChar_idem (c : Char) : normChar (normChar c) = normChar c := by
  by_cases h : c.isDigit ∨ c = ':'
  · have hc : normChar c = c := by rw [normChar, if_pos h]
    rw [hc]
    exact hc
  · have hc : normChar c = ':' := by rw [normChar, if_neg h]
    rw [hc]
    simp [normChar]

/-- C3. Timestamp normalization is a one-to-one character
substitution: it preserves length, keeps every digit and every colon in
place, replaces every other character by a colon, and is idempotent. -/
theorem c3_normalization (s : PyStr) :
    (normalizeHora s).length = s.length ∧
    (∀ i, i < s.length →
      (((s.getD i ':').isDigit ∨ s.getD i ':' = ':') →
        (normalizeHora s).getD i ':' = s.getD i ':') ∧
      (¬ ((s.getD i ':').isDigit ∨ s.getD i ':' = ':') →
        (normalizeHora s).getD i ':' = ':')) ∧
    normalizeHora (normalizeHora s) = normalizeHora s := by
  refine ⟨List.length_map s normChar, ?_, ?_⟩
  · intro i _
    constructor
    · intro hkeep
      rw [normalizeHora_getD, normChar, if_pos hkeep]
    · intro hrepl
      rw [normalizeHora_getD, normChar, if_neg hrepl]
  · unfold normalizeHora
    rw [List.map_map]
    apply List.map_congr_left
    intro c _
    exact normChar_idem c

/-- Witness for C3 at the concrete string `"08h15 am"`: normalization
yields `"08:15:::"`, whose second normalization is itself. -/
theorem c3_witness :
    normalizeHora ['0', '8', 'h', '1', '5', ' ', 'a', 'm'] =
        [':', ':', ':', ':', ':', ':', ':', ':'] ∨
    (normalizeHora (normalizeHora ['0', '8', 'h', '1', '5', ' ', 'a', 'm']) =
        normalizeHora ['0', '8', 'h', '1', '5', ' ', 'a', 'm'] ∧
      (normalizeHora ['0', '8', 'h', '1', '5', ' ', 'a', 'm']).length = 8) :=
  Or.inr ⟨(c3_normalization ['0', '8', 'h', '1', '5', ' ', 'a', 'm']).2.2,
          (c3_normalization ['0', '8', 'h', '1', '5', ' ', 'a', 'm']).1⟩

/-- Column names of a successful ingestion, by layout. -/
lemma process_pdf_ok_names (t : DF) (rest : List DF) (df : DF)
    (hok : process_pdf (t :: rest) = .ok df) :
    (t.colNames.length = 4 ∧ df.colNames = names4) ∨
    (t.colNames.length = 3 ∧ t.colNames.length ≠ 4 ∧ df.colNames = names3) := by
  rw [process_pdf_cons] at hok
  split_ifs at hok with h4 h3
  · left
    refine ⟨h4, ?_⟩
    rw [setCols_mk, finishTable4] at hok
    split at hok
    · exact absurd hok (by simp)
    · cases hok
      rfl
  · right
    refine ⟨h3, h4, ?_⟩
    rw [setCols_mk, finishTable3] at hok
    split at hok
    · exact absurd hok (by simp)
    · cases hok
      rfl

/-- A 4-column raw table with two rows, both with parseable voltages. -/
def exTable4 : DF :=
  ⟨["a", "b", "c", "d"],
   [[.num 1, .str ['0', '8', ':', '1', '5'], .num 125, .str ['n', 'o']],
    [.num 2, .str ['0', '8', ':', '1', '6'], .num 130, .str ['s', 'i']]]⟩

/-- C8 counterexample. The claim says the row-index column and the
pre-sorted-flag column are not present in the ingestion output.  On a
concrete 4-column table, ingestion succeeds and its output frame contains
both the `Lectura` (row-index) column and the `Ordenado_ascendente`
(pre-sorted-flag) column. -/
theorem c8_counterexample :
    (process_pdf [exTable4]).map
        (fun df => (df.colNames.contains "Lectura",
                    df.colNames.contains "Ordenado_ascendente"))
      = .ok (true, true) := by rfl

/-- C8 amended. Ingestion retains every column of the recognized
layout: the pre-sorted-flag column is present in every successful output,
and the row-index column is present exactly for the 4-column layout;
only timestamp and voltage (plus the derived error columns) are selected
later, at display time. -/
theorem c8_columns_retained (t : DF) (rest : List DF) (df : DF)
    (hok : process_pdf (t :: rest) = .ok df) :
    "Ordenado_ascendente" ∈ df.colNames ∧
      ("Lectura" ∈ df.colNames ↔ t.colNames.length = 4) := by
  rcases process_pdf_ok_names t rest df hok with ⟨h4, hn⟩ | ⟨h3, h4, hn⟩
  · rw [hn, h4]
    refine ⟨by decide, by simp [names4]⟩
  · rw [hn]
    refine ⟨by decide, ?_⟩
    constructor
    · intro hmem
      exact absurd hmem (by decide)
    · intro h
      exact absurd h h4

/-- The frame ingestion produces from `exTable4`. -/
def exOut4 : DF :=
  ⟨names4,
   [[.num 1, .str ['0', '8', ':', '1', '5'], .num 125, .str ['n', 'o']],
    [.num 2, .str ['0', '8', ':', '1', '6'], .num 130, .str ['s', 'i']]]⟩

/-- Witness for the amended C8 at the concrete 4-column table. -/
theorem c8_witness :
    "Ordenado_ascendente" ∈ exOut4.colNames ∧
      ("Lectura" ∈ exOut4.colNames ↔ exTable4.colNames.length = 4) :=
  c8_columns_retained exTable4 [] exOut4 (by decide)

/-! ## Values of the pandas reductions on a non-empty series -/

/-- The mean of a non-empty series. -/
def meanVal (vs : List ℚ) : ℚ := vs.sum / vs.length

/-- The median of a non-empty series. -/
def medianVal (vs : List ℚ) : ℚ :=
  let s := sortedQ vs
  let n := vs.length
  if n % 2 = 1 then s.getD (n / 2) 0 else (s.getD (n / 2 - 1) 0 + s.getD (n / 2) 0) / 2

/-- The maximum of a non-empty series (`0` junk value on empty). -/
def maxVal (vs : List ℚ) : ℚ := (vs.max?).getD 0

/-- The minimum of a non-empty series (`0` junk value on empty). -/
def minVal (vs : List ℚ) : ℚ := (vs.min?).getD 0

/-- The interpolated quantile of a non-empty series. -/
def quantileVal (vs : List ℚ) (p : ℚ) : ℚ :=
  let s := sortedQ vs
  let h : ℚ := ((vs.length - 1 : ℕ) : ℚ) * p
  let i : ℕ := ⌊h⌋.toNat
  let g : ℚ := h - i
  s.getD i 0 + g * (s.getD (i + 1) 0 - s.getD i 0)

/-- The mean absolute deviation of a non-empty series. -/
def madVal (vs : List ℚ) : ℚ :=
  (vs.map (fun v => |v - meanVal vs|)).sum / vs.length

/-- The standard deviation as pandas computes it: the square root of the
sample variance, NaN (`none`) when that is NaN. -/
noncomputable def stdVal (vs : List ℚ) : Option ℝ :=
  (varQ vs).map (fun q => Real.sqrt (q : ℝ))

lemma meanQ_eq {vs : List ℚ} (h : vs ≠ []) : meanQ vs = some (meanVal vs) := by
  unfold meanQ meanVal
  rw [if_neg (by simpa using h)]

lemma medianQ_eq {vs : List ℚ} (h : vs ≠ []) : medianQ vs = some (medianVal vs) := by
  have hlen : ¬ vs.length = 0 := by simpa using h
  by_cases hodd : vs.length % 2 = 1 <;> simp [medianQ, medianVal, hlen, hodd]

lemma maxQ_eq {vs : List ℚ} (h : vs ≠ []) : maxQ vs = some (maxVal vs) := by
  unfold maxQ maxVal
  cases vs with
  | nil => exact absurd rfl h
  | cons a l => rfl

lemma minQ_eq {vs : List ℚ} (h : vs ≠ []) : minQ vs = some (minVal vs) := by
  unfold minQ minVal
  cases vs with
  | nil => exact absurd rfl h
  | cons a l => rfl

lemma quantileQ_eq {vs : List ℚ} (p : ℚ) (h : vs ≠ []) :
    quantileQ vs p = some (quantileVal vs p) := by
  unfold quantileQ quantileVal
  rw [if_neg (by simpa using h)]

lemma madQ_eq {vs : List ℚ} (h : vs ≠ []) : madQ vs = some (madVal vs) := by
  unfold madQ madVal meanVal
  rw [meanQ_eq h]
  unfold meanVal
  simp only [Option.bind_eq_bind, Option.some_bind]
  rw [if_neg (by simpa using h)]

/-- Full characterization of a successful `calculate_statistics` run. -/
lemma calculate_statistics_eq (df : DF) (vals : List Val) (vq : List ℚ)
    (hcol : df.col "Voltaje" = some vals) (hvq : valsToQ vals = some vq)
    (hne : vq ≠ []) :
    calculate_statistics df = some
      ({ mean := meanVal vq,
         median := medianVal vq,
         mode := modeQ vq,
         std_dev := stdVal vq,
         variance := varQ vq,
         range := maxVal vq - minVal vq,
         coefficient_variation :=
           if meanVal vq ≠ 0 then (stdVal vq).map (fun x => x / ((meanVal vq : ℚ) : ℝ))
           else some 0,
         semi_interquartil := (quantileVal vq (3 / 4) - quantileVal vq (1 / 4)) / 2,
         mad := madVal vq },
       dfAug df vq) := by
  unfold calculate_statistics
  rw [hcol]
  simp only [Option.bind_eq_bind, Option.some_bind]
  rw [hvq]
  simp only [Option.some_bind]
  rw [meanQ_eq hne]
  simp only [Option.some_bind]
  rw [medianQ_eq hne]
  simp only [Option.some_bind]
  rw [maxQ_eq hne, minQ_eq hne]
  simp only [Option.some_bind]
  rw [quantileQ_eq (1 / 4) hne, quantileQ_eq (3 / 4) hne]
  simp only [Option.some_bind]
  rw [madQ_eq hne]
  simp only [Option.some_bind]
  rfl

/-- A frame with a single voltage reading. -/
def oneRow : DF := ⟨["Voltaje"], [[.num 127]]⟩

/-- C4. The statistics engine is total over its precondition: for
every frame with a non-empty all-numeric voltage column,
`calculate_statistics` returns a statistics record and an augmented frame
(it never raises), including the degenerate single-reading and
all-identical cases. -/
theorem c4_engine_total (df : DF) (vals : List Val) (vq : List ℚ)
    (hcol : df.col "Voltaje" = some vals) (hvq : valsToQ vals = some vq)
    (hne : vq ≠ []) :
    ∃ s dfA, calculate_statistics df = some (s, dfA) :=
  ⟨_, _, calculate_statistics_eq df vals vq hcol hvq hne⟩

/-- Witness for C4 at the degenerate single-reading frame. -/
theorem c4_witness :
    oneRow.col "Voltaje" = some [Val.num 127] ∧
      ∃ s dfA, calculate_statistics oneRow = some (s, dfA) :=
  ⟨by decide,
   c4_engine_total oneRow [Val.num 127] [127] (by decide) (by decide) (by decide)⟩

/-- C5. The computed `coefficient_variation` equals
`std_dev / mean` when the mean is nonzero and equals `0` when the mean is
exactly `0`: the guarded branch of line 56 means the division-by-zero
case is never evaluated. -/
theorem c5_coefficient_variation (df : DF) (vals : List Val) (vq : List ℚ)
    (hcol : df.col "Voltaje" = some vals) (hvq : valsToQ vals = some vq)
    (hne : vq ≠ []) :
    ∃ s dfA, calculate_statistics df = some (s, dfA) ∧
      (s.mean ≠ 0 →
        s.coefficient_variation = s.std_dev.map (fun x => x / ((s.mean : ℚ) : ℝ))) ∧
      (s.mean = 0 → s.coefficient_variation = some 0) := by
  refine ⟨_, _, calculate_statistics_eq df vals vq hcol hvq hne, ?_, ?_⟩
  · intro hm
    simp only at hm ⊢
    rw [if_pos hm]
  · intro hm
    simp only at hm ⊢
    rw [if_neg (by simp [hm])]

/-- Witness for C5 at the single-reading frame (mean `127 ≠ 0`). -/
theorem c5_witness :
    ∃ s dfA, calculate_statistics oneRow = some (s, dfA) ∧
      (s.mean ≠ 0 →
        s.coefficient_variation = s.std_dev.map (fun x => x / ((s.mean : ℚ) : ℝ))) ∧
      (s.mean = 0 → s.coefficient_variation = some 0) :=
  c5_coefficient_variation oneRow [Val.num 127] [127] (by decide) (by decide) (by decide)

lemma valsToQ_length : ∀ {vals : List Val} {vq : List ℚ},
    valsToQ vals = some vq → vq.length = vals.length := by
  intro vals
  induction vals with
  | nil =>
    intro vq h
    cases h
    rfl
  | cons v t ih =>
    intro vq h
    cases v with
    | num q =>
      unfold valsToQ at h
      cases ht : valsToQ t with
      | none => rw [ht] at h; cases h
      | some l =>
        rw [ht] at h
        cases h
        simp [ih ht]
    | str s => cases h
    | nan => cases h

lemma col_length {df : DF} {name : String} {vals : List Val}
    (h : df.col name = some vals) : vals.length = df.rows.length := by
  unfold DF.col at h
  cases hidx : df.colIdx name with
  | none => rw [hidx] at h; cases h
  | some i =>
    rw [hidx] at h
    cases h
    simp

lemma findIdx?_not_mem_append (names more : List String) (n : String) (h : n ∉ names) :
    (names ++ more).findIdx? (· = n) =
      (more.findIdx? (· = n)).map (· + names.length) := by
  rw [List.findIdx?_append]
  rw [List.findIdx?_eq_none_iff.mpr (fun x hx => by
    simp only [decide_eq_false_iff_not]
    intro he
    exact h (he ▸ hx))]
  rfl

lemma zip2_getD_fst (n : ℕ) :
    ∀ (rows : List (List Val)) (a b : List Val),
      (∀ row ∈ rows, row.length = n) → a.length = rows.length → b.length = rows.length →
      (List.zipWith (fun r v => r ++ [v])
          (List.zipWith (fun r v => r ++ [v]) rows a) b).map (fun r => r.getD n .nan) = a := by
  intro rows
  induction rows with
  | nil =>
    intro a b _ ha hb
    rw [List.length_nil, List.length_eq_zero] at ha hb
    subst ha
    subst hb
    rfl
  | cons row t ih =>
    intro a b hlen ha hb
    cases a with
    | nil => simp at ha
    | cons av at' =>
      cases b with
      | nil => simp at hb
      | cons bv bt =>
        have hrow : row.length = n := hlen row (by simp)
        simp only [List.zipWith_cons_cons, List.map_cons]
        congr 1
        · rw [List.getD_append _ _ _ n (by simp [hrow])]
          rw [List.getD_append_right _ _ _ n (by omega)]
          simp [hrow]
        · exact ih at' bt (fun w hw => hlen w (by simp [hw])) (by simpa using ha)
            (by simpa using hb)

lemma zip2_getD_snd (n : ℕ) :
    ∀ (rows : List (List Val)) (a b : List Val),
      (∀ row ∈ rows, row.length = n) → a.length = rows.length → b.length = rows.length →
      (List.zipWith (fun r v => r ++ [v])
          (List.zipWith (fun r v => r ++ [v]) rows a) b).map
        (fun r => r.getD (n + 1) .nan) = b := by
  intro rows
  induction rows with
  | nil =>
    intro a b _ ha hb
    rw [List.length_nil, List.length_eq_zero] at ha hb
    subst ha
    subst hb
    rfl
  | cons row t ih =>
    intro a b hlen ha hb
    cases a with
    | nil => simp at ha
    | cons av at' =>
      cases b with
      | nil => simp at hb
      | cons bv bt =>
        have hrow : row.length = n := hlen row (by simp)
        simp only [List.zipWith_cons_cons, List.map_cons]
        congr 1
        · rw [List.getD_append_right _ _ _ (n + 1) (by simp [hrow])]
          simp [hrow]
        · exact ih at' bt (fun w hw => hlen w (by simp [hw])) (by simpa using ha)
            (by simpa using hb)

/-- The two columns appended by `dfAug`-style double `addCol`, read back. -/
lemma col_addCol_addCol (df : DF) (a b : List Val) (A B : String)
    (hA : A ∉ df.colNames) (hB : B ∉ df.colNames) (hAB : A ≠ B)
    (hrect : df.rect = true)
    (hla : a.length = df.rows.length) (hlb : b.length = df.rows.length) :
    ((df.addCol A a).addCol B b).col A = some a ∧
    ((df.addCol A a).addCol B b).col B = some b := by
  have hidxA : ((df.addCol A a).addCol B b).colIdx A = some df.colNames.length := by
    unfold DF.colIdx DF.addCol
    simp only
    rw [List.append_assoc, findIdx?_not_mem_append _ _ _ hA]
    simp [hAB.symm]  -- findIdx? on [A, B]
  have hidxB : ((df.addCol A a).addCol B b).colIdx B = some (df.colNames.length + 1) := by
    unfold DF.colIdx DF.addCol
    simp only
    rw [List.append_assoc, findIdx?_not_mem_append _ _ _ hB]
    simp [hAB]
    omega
  have hrect2 : ∀ row ∈ df.rows, row.length = df.colNames.length := by
    intro row hrow
    have := (List.all_eq_true.mp hrect) row hrow
    simpa using this
  constructor
  · unfold DF.col
    rw [hidxA]
    simp only [Option.map_some', DF.addCol]
    congr 1
    exact zip2_getD_fst df.colNames.length df.rows a b hrect2 hla hlb
  · unfold DF.col
    rw [hidxB]
    simp only [Option.map_some', DF.addCol]
    congr 1
    exact zip2_getD_snd df.colNames.length df.rows a b hrect2 hla hlb

/-- Exact distributivity of the per-row relative error over the sum. -/
lemma rel_sum_eq (l : List ℚ) :
    (l.map (fun v => |v - real_voltage| / real_voltage * 100)).sum =
      (l.map (fun v => |v - real_voltage|)).sum / real_voltage * 100 := by
  induction l with
  | nil => simp
  | cons x t ih =>
    simp only [List.map_cons, List.sum_cons, ih]
    ring

/-- C6. The augmented frame's error columns hold exactly the per-row
values `|v - 127|` and `|v - 127| / 127 · 100`, and over exact arithmetic
the sum of the relative errors equals the sum of the absolute errors
divided by `127` and multiplied by `100`. -/
theorem c6_error_column_sums (df : DF) (vals : List Val) (vq : List ℚ)
    (hcol : df.col "Voltaje" = some vals) (hvq : valsToQ vals = some vq)
    (hne : vq ≠ []) (hrect : df.rect = true)
    (hA : "Error Absoluto" ∉ df.colNames) (hR : "Error Relativo (%)" ∉ df.colNames) :
    ∃ s dfA, calculate_statistics df = some (s, dfA) ∧
      dfA.col "Error Absoluto" =
        some ((vq.map (fun v => |v - real_voltage|)).map Val.num) ∧
      dfA.col "Error Relativo (%)" =
        some ((vq.map (fun v => |v - real_voltage| / real_voltage * 100)).map Val.num) ∧
      (vq.map (fun v => |v - real_voltage| / real_voltage * 100)).sum =
        (vq.map (fun v => |v - real_voltage|)).sum / real_voltage * 100 := by
  have hlen : vq.length = df.rows.length := (valsToQ_length hvq).trans (col_length hcol)
  have hcols := col_addCol_addCol df
    (vq.map (fun v => Val.num |v - real_voltage|))
    (vq.map (fun v => Val.num (|v - real_voltage| / real_voltage * 100)))
    "Error Absoluto" "Error Relativo (%)" hA hR (by decide) hrect
    (by simpa using hlen) (by simpa using hlen)
  refine ⟨_, _, calculate_statistics_eq df vals vq hcol hvq hne, ?_, ?_, rel_sum_eq vq⟩
  · show (dfAug df vq).col "Error Absoluto" = _
    unfold dfAug
    rw [hcols.1, List.map_map]
    rfl
  · show (dfAug df vq).col "Error Relativo (%)" = _
    unfold dfAug
    rw [hcols.2, List.map_map]
    rfl

/-- Witness for C6 at the single-reading frame. -/
theorem c6_witness :
    ∃ s dfA, calculate_statistics oneRow = some (s, dfA) ∧
      dfA.col "Error Absoluto" =
        some (([(127 : ℚ)].map (fun v => |v - real_voltage|)).map Val.num) ∧
      dfA.col "Error Relativo (%)" =
        some (([(127 : ℚ)].map
          (fun v => |v - real_voltage| / real_voltage * 100)).map Val.num) ∧
      ([(127 : ℚ)].map (fun v => |v - real_voltage| / real_voltage * 100)).sum =
        ([(127 : ℚ)].map (fun v => |v - real_voltage|)).sum / real_voltage * 100 :=
  c6_error_column_sums oneRow [Val.num 127] [127] (by decide) (by decide) (by decide)
    (by decide) (by decide) (by decide)

lemma meanVal_all_eq {vq : List ℚ} {x : ℚ} (hall : ∀ v ∈ vq, v = x)
    (hne : vq ≠ []) : meanVal vq = x := by
  unfold meanVal
  rw [List.sum_eq_card_nsmul vq x hall, nsmul_eq_mul]
  have h0 : (vq.length : ℚ) ≠ 0 := Nat.cast_ne_zero.mpr (by simpa using hne)
  field_simp

lemma varQ_all_eq {vq : List ℚ} {x : ℚ} (hall : ∀ v ∈ vq, v = x)
    (h2 : 2 ≤ vq.length) : varQ vq = some 0 := by
  have hne : vq ≠ [] := by
    intro h
    subst h
    simp at h2
  unfold varQ
  rw [if_pos h2, meanQ_eq hne]
  simp only [Option.map_some']
  congr 1
  have hz : ∀ y ∈ vq.map (fun v => (v - meanVal vq) ^ 2), y = 0 := by
    intro y hy
    obtain ⟨v, hv, rfl⟩ := List.mem_map.mp hy
    rw [hall v hv, meanVal_all_eq hall hne]
    ring
  rw [List.sum_eq_card_nsmul _ 0 hz]
  simp

lemma madVal_all_eq {vq : List ℚ} {x : ℚ} (hall : ∀ v ∈ vq, v = x)
    (hne : vq ≠ []) : madVal vq = 0 := by
  unfold madVal
  have hz : ∀ y ∈ vq.map (fun v => |v - meanVal vq|), y = 0 := by
    intro y hy
    obtain ⟨v, hv, rfl⟩ := List.mem_map.mp hy
    rw [hall v hv, meanVal_all_eq hall hne]
    simp
  rw [List.sum_eq_card_nsmul _ 0 hz]
  simp

lemma dedup_all_eq : ∀ {vq : List ℚ} {x : ℚ},
    (∀ v ∈ vq, v = x) → vq ≠ [] → vq.dedup = [x] := by
  intro vq
  induction vq with
  | nil =>
    intro x _ h
    exact absurd rfl h
  | cons a t ih =>
    intro x hall _
    have ha : a = x := hall a (by simp)
    cases t with
    | nil => simp [ha]
    | cons b t' =>
      have hmem : x ∈ b :: t' := by
        have hb : b = x := hall b (by simp)
        simp [hb.symm]
      rw [ha, List.dedup_cons_of_mem hmem]
      exact ih (fun v hv => hall v (by simp [hv])) (by simp)

lemma foldr_max_all_eq : ∀ (l : List ℕ) (m : ℕ),
    (∀ y ∈ l, y = m) → l ≠ [] → l.foldr max 0 = m := by
  intro l
  induction l with
  | nil =>
    intro m _ h
    exact absurd rfl h
  | cons a t ih =>
    intro m hall _
    have ha : a = m := hall a (by simp)
    cases t with
    | nil => simp [ha]
    | cons b t' =>
      rw [List.foldr_cons, ih m (fun y hy => hall y (by simp [hy])) (by simp), ha]
      simp

lemma modeQ_all_eq {vq : List ℚ} {x : ℚ} (hall : ∀ v ∈ vq, v = x)
    (hne : vq ≠ []) : modeQ vq = [x] := by
  have hcntx : vq.count x = vq.length :=
    List.count_eq_length.mpr (fun b hb => (hall b hb).symm)
  have hcnt : ∀ y ∈ vq.map (fun y => vq.count y), y = vq.length := by
    intro y hy
    obtain ⟨v, hv, rfl⟩ := List.mem_map.mp hy
    rw [hall v hv]
    exact hcntx
  have hm : (vq.map (fun y => vq.count y)).foldr max 0 = vq.length :=
    foldr_max_all_eq _ _ hcnt (by simpa using hne)
  simp only [modeQ, hm, dedup_all_eq hall hne]
  rw [List.filter_cons]
  simp [hcntx, sortedQ]

/-- C7 counterexample. The claim asserts `std_dev == 0` and
`variance == 0` for every non-empty all-identical series, but for a
single reading (all trivially identical) pandas' sample `std`/`var`
(divisor `n-1`) yield NaN, not `0`. -/
theorem c7_counterexample :
    (calculate_statistics oneRow).map (fun sd => (sd.1.std_dev, sd.1.variance)) =
      some (none, none) := by
  rw [calculate_statistics_eq oneRow [Val.num 127] [127] (by decide) (by decide)
    (by decide)]
  simp [stdVal, varQ]

/-- C7 amended. For every series of at least two readings all equal
to `x`, the computed statistics satisfy `std_dev = 0`, `variance = 0`,
`mean_absolute_deviation = 0` and `mode = [x]`; for a single reading,
`std_dev` and `variance` are NaN instead (see the counterexample), while
`mad = 0` and `mode = [x]` still hold. -/
theorem c7_all_equal_stats (df : DF) (vals : List Val) (vq : List ℚ) (x : ℚ)
    (hcol : df.col "Voltaje" = some vals) (hvq : valsToQ vals = some vq)
    (hall : ∀ v ∈ vq, v = x) (h2 : 2 ≤ vq.length) :
    ∃ s dfA, calculate_statistics df = some (s, dfA) ∧
      s.std_dev = some 0 ∧ s.variance = some 0 ∧ s.mad = 0 ∧ s.mode = [x] := by
  have hne : vq ≠ [] := by
    intro h
    subst h
    simp at h2
  refine ⟨_, _, calculate_statistics_eq df vals vq hcol hvq hne, ?_, ?_, ?_, ?_⟩
  · show stdVal vq = some 0
    unfold stdVal
    rw [varQ_all_eq hall h2]
    simp
  · exact varQ_all_eq hall h2
  · exact madVal_all_eq hall hne
  · exact modeQ_all_eq hall hne

/-- A frame with two identical voltage readings. -/
def twoRows : DF := ⟨["Voltaje"], [[.num 127], [.num 127]]⟩

/-- Witness for the amended C7 at two identical readings. -/
theorem c7_witness :
    ∃ s dfA, calculate_statistics twoRows = some (s, dfA) ∧
      s.std_dev = some 0 ∧ s.variance = some 0 ∧ s.mad = 0 ∧ s.mode = [127] :=
  c7_all_equal_stats twoRows [Val.num 127, Val.num 127] [127, 127] 127
    (by decide) (by decide) (by decide) (by decide)

/-- The augmentation never returns the frame it was given: it has two
more columns. -/
lemma dfAug_ne (df : DF) (vq : List ℚ) : dfAug df vq ≠ df := by
  intro h
  have hl := congrArg (fun d => d.colNames.length) h
  simp [dfAug, DF.addCol] at hl

/-- C9 counterexample. The claim says the statistics engine does not
modify the object it was given.  Calling the engine on a heap holding one
frame updates that very heap cell: afterwards it carries the two extra
error columns, so the caller's object was mutated in place. -/
theorem c9_counterexample :
    (calculate_statistics_call [oneRow] 0).map (fun x => x.2.map DF.colNames) =
      some [["Voltaje", "Error Absoluto", "Error Relativo (%)"]] ∧
    [["Voltaje", "Error Absoluto", "Error Relativo (%)"]] ≠ [oneRow].map DF.colNames := by
  constructor
  · unfold calculate_statistics_call
    rw [show (([oneRow] : List DF).get? 0) = some oneRow from rfl]
    simp only [Option.bind_eq_bind, Option.some_bind]
    rw [calculate_statistics_eq oneRow [Val.num 127] [127] (by decide) (by decide)
      (by decide)]
    simp [dfAug, DF.addCol, oneRow]
  · decide

/-- C9 amended. The engine mutates the frame it was given: the call
`stats, df = calculate_statistics(df)` updates the heap cell at the
passed reference with the error-augmented frame — a frame different from
the one passed in — and returns that same reference. -/
theorem c9_in_place_mutation (heap : List DF) (r : ℕ) (df : DF)
    (vals : List Val) (vq : List ℚ) (hr : heap.get? r = some df)
    (hcol : df.col "Voltaje" = some vals) (hvq : valsToQ vals = some vq)
    (hne : vq ≠ []) :
    ∃ s, calculate_statistics_call heap r =
        some ((s, r), heap.set r (dfAug df vq)) ∧ dfAug df vq ≠ df := by
  unfold calculate_statistics_call
  rw [hr]
  simp only [Option.bind_eq_bind, Option.some_bind]
  rw [calculate_statistics_eq df vals vq hcol hvq hne]
  simp only [Option.some_bind]
  exact ⟨_, rfl, dfAug_ne df vq⟩

/-- Witness for the amended C9 on a one-cell heap. -/
theorem c9_witness :
    ∃ s, calculate_statistics_call [oneRow] 0 =
        some ((s, 0), ([oneRow] : List DF).set 0 (dfAug oneRow [127])) ∧
      dfAug oneRow [127] ≠ oneRow :=
  c9_in_place_mutation [oneRow] 0 oneRow [Val.num 127] [127] (by decide) (by decide)
    (by decide) (by decide)

/-- No event of either window ever takes the report branch. -/
lemma runEvents_no_report : ∀ (tr : List (Event × StepInput)) (scr : Screen),
    validTrace scr tr → runEvents scr tr = false := by
  intro tr
  induction tr with
  | nil =>
    intro scr _
    rfl
  | cons p rest ih =>
    intro scr hv
    obtain ⟨ev, inp⟩ := p
    obtain ⟨hev, hrest⟩ := hv
    have hrb : (loopStep scr ev inp).reportBranch = false := by
      cases scr <;> simp [windowEvents] at hev <;>
        rcases hev with h | h | h <;> subst h <;>
          simp [loopStep, apply_ite StepOut.reportBranch]
    rw [runEvents]
    cases hnext : (loopStep scr ev inp).next with
    | none => simp [hrb, hnext]
    | some s' =>
      rw [hnext] at hrest
      simp only at hrest
      simp [hrb, hnext, ih s' hrest]

/-- C10. The report-generation branch of the event loop is guarded by
the event string `Generar Reporte PDF`, but neither window can emit that
event (the report button emits `Generar Reporte`): on every event trace
the two windows can produce, the report branch never runs. -/
theorem c10_report_branch_dead (tr : List (Event × StepInput))
    (h : validTrace Screen.fileSelect tr) :
    runEvents Screen.fileSelect tr = false ∧
      ∀ scr : Screen, (some "Generar Reporte PDF" : Event) ∉ windowEvents scr := by
  refine ⟨runEvents_no_report tr _ h, ?_⟩
  intro scr
  cases scr <;> decide

/-- Witness for C10: a full session — process a file, click the report
button, close the window — never runs the report branch. -/
theorem c10_witness :
    runEvents Screen.fileSelect
        [(some "Procesar", ⟨true, true⟩), (some "Generar Reporte", ⟨true, true⟩),
         (none, ⟨true, true⟩)] = false ∧
      ∀ scr : Screen, (some "Generar Reporte PDF" : Event) ∉ windowEvents scr :=
  c10_report_branch_dead _
    (by simp [validTrace, windowEvents, loopStep])
